import Mathlib

set_option autoImplicit false

/-!
Shallow embedding of qubit-opencensus: the asyncio `ContextTracer`
(`src/qubit/opencensus/trace/tracers/asyncio_context_tracer.py`), the scoped-span
helper `AsyncSpan`, the aioredis wrapper `wrap_execute`
(`src/qubit/opencensus/trace/ext/aioredis/trace.py`) and the request phase of the
sanic middleware (`src/qubit/opencensus/trace/ext/sanic/sanic_middleware.py`).

Span identities are modelled as arena indices in creation order: a span's
`span_id` equals its index in `World.arena`.  Times are modelled by a logical
clock stamped on `start()`/`finish()`.
-/

namespace Qubit

/-- Scalar attribute values attached to spans (booleans, strings, numbers). -/
inductive AttrVal
  | b (v : Bool)
  | s (v : String)
  | n (v : Nat)
deriving DecidableEq, Repr, Inhabited

/-- Python-level exceptions raised by the embedded code paths. -/
inductive PyErr
  | typeError (msg : String)
  | attrError (msg : String)
  | indexError
deriving DecidableEq, Repr

/-- The `parent_span` slot of a span: either a real parent `Span` (by arena index)
or a `base.NullContextManager` carrying the inbound span id from the
`SpanContext` (the remote-parent case in `start_span`). -/
inductive ParentRef
  | nullCtx (sid : Option Nat)
  | span (idx : Nat)
deriving DecidableEq, Repr, Inhabited

/-- The `span_id` attribute read off a `parent_span` in `end_span` and
`get_span_datas`.  For a real parent span the stored arena index is its
`span_id` (span ids are modelled as creation indices); a `NullContextManager`
returns the span id it was built with. -/
def ParentRef.spanId : ParentRef → Option Nat
  | .nullCtx sid => sid
  | .span i => some i

/-- True exactly when the parent reference is a `NullContextManager`
(the `isinstance(cur_span.parent_span, trace_span.Span)` test is its negation). -/
def ParentRef.isNull : ParentRef → Bool
  | .nullCtx _ => true
  | .span _ => false

/-- Modelled from the spec: the external SDK span record (`opencensus.trace.span.Span`,
out of scope per the spec's section 3).  Mutable name, optional start/end times,
string-keyed attributes, a parent back-reference and an owned child list; the child
list is only populated by the SDK's own `Span.span` method, which this repository
never calls, so under `ContextTracer` operations it stays empty. -/
structure Span where
  name : String
  span_id : Nat
  parent_span : ParentRef
  attributes : List (String × AttrVal)
  start_time : Option Nat
  end_time : Option Nat
  children : List Nat
deriving DecidableEq, Repr, Inhabited

/-- The exportable record built per span by `get_span_datas`
(`opencensus.trace.span_data.SpanData`, keeping the fields the embedding models). -/
structure SpanData where
  name : String
  span_id : Nat
  parent_span_id : Option Nat
  attributes : List (String × AttrVal)
  start_time : Option Nat
  end_time : Option Nat
  child_span_count : Nat
deriving DecidableEq, Repr, Inhabited

/-- The whole observable state of one logical task using one `ContextTracer`:
the span arena (all spans ever created, in creation order), the tracer's
`_spans_list` (arena indices), the tracer's `span_context.span_id`, the
task-local context-store bindings, the log of batches handed to
`exporter.export`, a logical clock, and the count of `logging.warning` calls
made by `end_span` with no active span. -/
structure World where
  arena : List Span
  spans_list : List Nat
  ctx_span_id : Option Nat
  current : Option Nat
  tracer_active : Bool
  exported : List (List SpanData)
  clock : Nat
  warn_count : Nat
deriving DecidableEq, Repr

/-- Modelled from the spec: `qubit.opencensus.trace.asyncio_context` (repository
code not under src/): `set_current_span` stores the span as the calling task's
current-span binding (spec section 4.1). -/
def set_current_span (w : World) (s : Option Nat) : World :=
  { w with current := s }

/-- Modelled from the spec: `qubit.opencensus.trace.asyncio_context.get_current_span`
returns the calling task's current-span binding, or none if never set. -/
def get_current_span (w : World) : Option Nat :=
  w.current

/-- Modelled from the spec: `qubit.opencensus.trace.asyncio_context.get_opencensus_tracer`
returns whether an active tracer is bound for the calling task (the bound tracer,
when present, is the `ContextTracer` this `World` embeds). -/
def get_opencensus_tracer_active (w : World) : Bool :=
  w.tracer_active

/-- Modelled from the spec: `qubit.opencensus.trace.asyncio_context.set_opencensus_tracer`
binds the active tracer for the calling task. -/
def set_opencensus_tracer (w : World) : World :=
  { w with tracer_active := true }

/-- Python dict assignment `attributes[key] = value`: overwrite the key when
present, otherwise append the pair. -/
def setAttr (attrs : List (String × AttrVal)) (k : String) (v : AttrVal) :
    List (String × AttrVal) :=
  if attrs.any (fun p => p.1 = k) then
    attrs.map (fun p => if p.1 = k then (k, v) else p)
  else
    attrs ++ [(k, v)]

/-- Reading `attributes[key]` back (used only in theorem statements). -/
def attrLookup (attrs : List (String × AttrVal)) (k : String) : Option AttrVal :=
  (attrs.find? (fun p => p.1 = k)).map Prod.snd

/-- In-place mutation of the span object at arena index `i`
(a Python attribute assignment on the shared object). -/
def updateSpan (arena : List Span) (i : Nat) (f : Span → Span) : List Span :=
  arena.set i (f (arena.getD i default))

/-- The parent chosen by `ContextTracer.start_span`: the context store's current
span when one is open, else a `NullContextManager` holding
`self.span_context.span_id`. -/
def startParent (w : World) : ParentRef :=
  match get_current_span w with
  | some i => ParentRef.span i
  | none => ParentRef.nullCtx w.ctx_span_id

/-- `ContextTracer.start_span(name)`: build a span whose parent is the current
span (or the inbound context), append it to `_spans_list`, update
`span_context.span_id`, register it as current in the context store, and stamp
its start time (`span.start()`).  Returns the new span's arena index. -/
def start_span (w : World) (name : String) : World × Nat :=
  let parent := startParent w
  let idx := w.arena.length
  let sp : Span :=
    { name := name, span_id := idx, parent_span := parent, attributes := [],
      start_time := none, end_time := none, children := [] }
  let w1 : World :=
    { w with
        arena := w.arena ++ [sp],
        spans_list := w.spans_list ++ [idx],
        ctx_span_id := some idx }
  let w2 := set_current_span w1 (some idx)
  let w3 : World :=
    { w2 with
        arena := updateSpan w2.arena idx (fun s => { s with start_time := some w2.clock }),
        clock := w2.clock + 1 }
  (w3, idx)

/-- `span.finish()`: stamp the end time on the span at arena index `i`. -/
def finishSpan (w : World) (i : Nat) : World :=
  { w with
      arena := updateSpan w.arena i (fun s => { s with end_time := some w.clock }),
      clock := w.clock + 1 }

/-- `list(iter(span))`: the SDK's subtree flattening - children first
(depth-first), then the span itself.  Recursion is bounded by explicit fuel;
under `ContextTracer` use every child list is empty, so the result is `[i]`. -/
def spanTree (arena : List Span) : Nat → Nat → List Nat
  | 0, i => [i]
  | fuel + 1, i =>
    ((arena.getD i default).children.flatMap (spanTree arena fuel)) ++ [i]

/-- One `SpanData` record as built in `get_span_datas` for the span at index `i`. -/
def mkSpanData (arena : List Span) (i : Nat) : SpanData :=
  let s := arena.getD i default
  { name := s.name, span_id := s.span_id,
    parent_span_id := s.parent_span.spanId,
    attributes := s.attributes, start_time := s.start_time,
    end_time := s.end_time, child_span_count := s.children.length }

/-- `ContextTracer.get_span_datas(span)`: one exportable record per span in the
flattened subtree of the span at index `i`. -/
def get_span_datas (w : World) (i : Nat) : List SpanData :=
  (spanTree w.arena w.arena.length i).map (mkSpanData w.arena)

/-- `ContextTracer.current_span()`: pure read of the context store. -/
def current_span (w : World) : Option Nat :=
  get_current_span w

/-- `ContextTracer.end_span()`: resolve the span to end as the context store's
current span, else the top of `_spans_list`; if none, log a warning and return.
Otherwise stamp the end time, restore `span_context.span_id` and the store's
current binding to the parent, and - when the span is in `_spans_list` - export
its flattened subtree as one batch and remove it from the list.  Returns the
ended span's index. -/
def end_span (w : World) : World × Option Nat :=
  let cur : Option Nat :=
    match get_current_span w with
    | some i => some i
    | none => w.spans_list.getLast?
  match cur with
  | none => ({ w with warn_count := w.warn_count + 1 }, none)
  | some i =>
    let w1 := finishSpan w i
    let parent := (w1.arena.getD i default).parent_span
    let w2 : World := { w1 with ctx_span_id := parent.spanId }
    let w3 :=
      match parent with
      | .span j => set_current_span w2 (some j)
      | .nullCtx _ => set_current_span w2 none
    let w4 : World :=
      if i ∈ w3.spans_list then
        { w3 with
            exported := w3.exported ++ [get_span_datas w3 i],
            spans_list := w3.spans_list.erase i }
      else w3
    (w4, some i)

/-- `ContextTracer.add_attribute_to_current_span(key, value)`: look up the
current span in the context store and set the attribute on it; with no current
span the source dereferences `None` and raises `AttributeError`. -/
def add_attribute_to_current_span (w : World) (k : String) (v : AttrVal) :
    Except PyErr World :=
  match get_current_span w with
  | none => .error (.attrError "NoneType has no add_attribute")
  | some i =>
    .ok { w with
            arena := updateSpan w.arena i
              (fun s => { s with attributes := setAttr s.attributes k v }) }

/-- The loop body of `ContextTracer.finish()` with explicit fuel:
`while self._spans_list: self.end_span()`. -/
def finishFuel : Nat → World → World
  | 0, w => w
  | fuel + 1, w =>
    if w.spans_list.isEmpty then w
    else finishFuel fuel (end_span w).1

/-- `ContextTracer.finish()`: run the while-loop; fuel `|_spans_list|` suffices
(each iteration on a reachable world removes exactly one open span, proved below). -/
def finishTracer (w : World) : World :=
  finishFuel w.spans_list.length w

/-- The tracer operations a single logical task can interleave (claim C1). -/
inductive Op
  | start (name : String)
  | stop
deriving DecidableEq, Repr

/-- One tracer call. -/
def step (w : World) : Op → World
  | .start name => (start_span w name).1
  | .stop => (end_span w).1

/-- A sequence of tracer calls. -/
def run (w : World) (ops : List Op) : World :=
  ops.foldl step w

/-- A fresh `ContextTracer` in a fresh task: empty arena and span list,
`span_context.span_id = root_id`, no current span, tracer bound. -/
def initWorld (root_id : Nat) : World :=
  { arena := [], spans_list := [], ctx_span_id := some root_id,
    current := none, tracer_active := true, exported := [], clock := 0,
    warn_count := 0 }

/-- All records handed to the exporter so far, flattened across batches. -/
def exportedFlat (w : World) : List SpanData :=
  w.exported.flatten

/-- How many exported records carry span id `i`. -/
def exportCount (w : World) (i : Nat) : Nat :=
  (exportedFlat w).countP (fun d => d.span_id == i)

/-- `N` consecutive `end_span()` calls, recording each call's return value. -/
def endRun : World → Nat → World × List (Option Nat)
  | w, 0 => (w, [])
  | w, n + 1 =>
    let p := end_span w
    let q := endRun p.1 n
    (q.1, p.2 :: q.2)

/-! ### List helper lemmas -/

theorem getD_append_lt {α : Type} (l l' : List α) (d : α) :
    ∀ i, i < l.length → (l ++ l').getD i d = l.getD i d := by
  induction l with
  | nil => intro i h; exact absurd h (Nat.not_lt_zero i)
  | cons a t ih =>
    intro i h
    cases i with
    | zero => rfl
    | succ j => exact ih j (Nat.lt_of_succ_lt_succ h)

theorem getD_append_len {α : Type} (l : List α) (a d : α) :
    (l ++ [a]).getD l.length d = a := by
  induction l with
  | nil => rfl
  | cons x t ih => exact ih

theorem getD_of_len_le {α : Type} (l : List α) (d : α) :
    ∀ i, l.length ≤ i → l.getD i d = d := by
  induction l with
  | nil => intro i _; cases i <;> rfl
  | cons a t ih =>
    intro i h
    cases i with
    | zero => exact absurd h (Nat.not_succ_le_zero _)
    | succ j => exact ih j (Nat.le_of_succ_le_succ h)

theorem getD_set_self {α : Type} (l : List α) (a d : α) :
    ∀ i, i < l.length → (l.set i a).getD i d = a := by
  induction l with
  | nil => intro i h; exact absurd h (Nat.not_lt_zero i)
  | cons x t ih =>
    intro i h
    cases i with
    | zero => rfl
    | succ j => exact ih j (Nat.lt_of_succ_lt_succ h)

theorem getD_set_ne {α : Type} (l : List α) (a d : α) :
    ∀ i j, j ≠ i → (l.set i a).getD j d = l.getD j d := by
  induction l with
  | nil => intro i j _; rfl
  | cons x t ih =>
    intro i j hne
    cases i with
    | zero =>
      cases j with
      | zero => exact absurd rfl hne
      | succ j' => rfl
    | succ i' =>
      cases j with
      | zero => rfl
      | succ j' => exact ih i' j' (fun h => hne (congrArg Nat.succ h))

theorem set_append_len {α : Type} (l : List α) (a x : α) :
    (l ++ [a]).set l.length x = l ++ [x] := by
  induction l with
  | nil => rfl
  | cons y t ih => simp [ih]

/-- Transport of `Chain'` along a relation implication that only needs to hold
on members of the list. -/
theorem chain'_congr_mem {α : Type} {R R' : α → α → Prop} :
    ∀ {l : List α}, (∀ a ∈ l, ∀ b ∈ l, R a b → R' a b) →
      List.Chain' R l → List.Chain' R' l := by
  intro l
  induction l with
  | nil => intro _ _; exact List.chain'_nil
  | cons a t ih =>
    intro himp hc
    rcases t with _ | ⟨b, t'⟩
    · exact List.chain'_singleton a
    · rw [List.chain'_cons] at hc ⊢
      refine ⟨himp a (by simp) b (by simp) hc.1, ih ?_ hc.2⟩
      intro x hx y hy
      exact himp x (by simp [hx]) y (by simp [hy])

/-! ### Attribute-map lemmas -/

theorem setAttr_cons_ne (p : String × AttrVal) (t : List (String × AttrVal))
    (k : String) (v : AttrVal) (hp : p.1 ≠ k) :
    setAttr (p :: t) k v = p :: setAttr t k v := by
  unfold setAttr
  by_cases h : t.any (fun q => q.1 = k) <;> simp [List.any_cons, hp, h]

theorem attrLookup_setAttr_self (attrs : List (String × AttrVal))
    (k : String) (v : AttrVal) :
    attrLookup (setAttr attrs k v) k = some v := by
  induction attrs with
  | nil => simp [setAttr, attrLookup]
  | cons p t ih =>
    by_cases hp : p.1 = k
    · have hany : (p :: t).any (fun q => q.1 = k) = true := by
        simp [List.any_cons, hp]
      have hset : setAttr (p :: t) k v =
          (k, v) :: t.map (fun q => if q.1 = k then (k, v) else q) := by
        simp [setAttr, hany, hp]
      rw [hset]
      unfold attrLookup
      rw [List.find?_cons_of_pos _ (by simp)]
      rfl
    · rw [setAttr_cons_ne p t k v hp]
      have hd : (decide (p.1 = k)) = false := by simpa using hp
      simpa [attrLookup, List.find?, hd] using ih

theorem find?_map_overwrite (t : List (String × AttrVal)) (k k' : String)
    (v : AttrVal) (h : k' ≠ k) :
    (t.map (fun q => if q.1 = k then (k, v) else q)).find?
        (fun q => q.1 = k') =
      t.find? (fun q => q.1 = k') := by
  induction t with
  | nil => rfl
  | cons q t ih =>
    by_cases hq : q.1 = k
    · have h1 : (decide (k = k')) = false := by
        simpa using fun hh => h hh.symm
      have h2 : (decide (q.1 = k')) = false := by
        rw [hq]; simpa using fun hh => h hh.symm
      simp only [List.map_cons, if_pos hq, List.find?, h1, h2]
      exact ih
    · simp only [List.map_cons, if_neg hq, List.find?]
      cases hfind : decide (q.1 = k') with
      | true => rfl
      | false => exact ih

theorem attrLookup_setAttr_other (attrs : List (String × AttrVal))
    (k k' : String) (v : AttrVal) (h : k' ≠ k) :
    attrLookup (setAttr attrs k v) k' = attrLookup attrs k' := by
  induction attrs with
  | nil =>
    have h1 : (decide (k = k')) = false := by
      simpa using fun hh => h hh.symm
    simp [setAttr, attrLookup, List.find?, h1]
  | cons p t ih =>
    by_cases hp : p.1 = k
    · have hany : (p :: t).any (fun q => q.1 = k) = true := by
        simp [List.any_cons, hp]
      have h2 : (decide (p.1 = k')) = false := by
        rw [hp]; simpa using fun hh => h hh.symm
      have hset : setAttr (p :: t) k v =
          (k, v) :: t.map (fun q => if q.1 = k then (k, v) else q) := by
        simp [setAttr, hany, hp]
      rw [hset]
      unfold attrLookup
      rw [List.find?_cons_of_neg _ (by simpa using fun hh => h hh.symm),
        List.find?_cons_of_neg _ (by simp [h2]),
        find?_map_overwrite t k k' v h]
    · rw [setAttr_cons_ne p t k v hp]
      simp only [attrLookup, List.find?] at ih ⊢
      cases hfind : decide (p.1 = k') with
      | true => rfl
      | false => exact ih

/-! ### Normal forms of the tracer operations -/

/-- The reachable-state invariant of one tracer in one logical task:
`_spans_list` is a strictly-increasing chain of parent-linked open spans whose
top is the context store's current span; open spans are unfinished and
unexported; spans that left the list are finished and were exported exactly
once; exported records only name existing spans; span ids are creation indices
and child lists are empty. -/
structure Inv (w : World) : Prop where
  cur_last : w.current = w.spans_list.getLast?
  bounded : ∀ i ∈ w.spans_list, i < w.arena.length
  increasing : List.Chain' (· < ·) w.spans_list
  chain : List.Chain'
    (fun a b => (w.arena.getD b default).parent_span = ParentRef.span a) w.spans_list
  head_root : ∀ h ∈ w.spans_list.head?,
    ((w.arena.getD h default).parent_span).isNull = true
  span_ids : ∀ i, i < w.arena.length → (w.arena.getD i default).span_id = i
  no_children : ∀ i, (w.arena.getD i default).children = []
  open_unfinished : ∀ i ∈ w.spans_list, (w.arena.getD i default).end_time = none
  closed_finished : ∀ i, i < w.arena.length → i ∉ w.spans_list →
    (w.arena.getD i default).end_time ≠ none
  open_unexported : ∀ i ∈ w.spans_list, exportCount w i = 0
  closed_exported : ∀ i, i < w.arena.length → i ∉ w.spans_list → exportCount w i = 1
  export_bounded : ∀ d ∈ exportedFlat w, d.span_id < w.arena.length

/-- A fresh tracer satisfies the invariant. -/
theorem inv_init (root_id : Nat) : Inv (initWorld root_id) where
  cur_last := rfl
  bounded := by simp [initWorld]
  increasing := List.chain'_nil
  chain := List.chain'_nil
  head_root := by simp [initWorld]
  span_ids := by simp [initWorld]
  no_children := by
    intro i
    have : ((initWorld root_id).arena.getD i default) = default :=
      getD_of_len_le _ _ i (Nat.zero_le i)
    rw [this]; rfl
  open_unfinished := by simp [initWorld]
  closed_finished := by simp [initWorld]
  open_unexported := by simp [initWorld]
  closed_exported := by simp [initWorld]
  export_bounded := by simp [initWorld, exportedFlat]

theorem spanTree_single (arena : List Span) (fuel i : Nat)
    (h : (arena.getD i default).children = []) :
    spanTree arena fuel i = [i] := by
  cases fuel with
  | zero => rfl
  | succ n => unfold spanTree; rw [h]; rfl

theorem erase_append_last (l : List Nat) (i : Nat) (h : i ∉ l) :
    (l ++ [i]).erase i = l := by
  induction l with
  | nil => simp
  | cons a t ih =>
    have ha : (a == i) = false := by
      simp only [List.mem_cons, not_or] at h
      simpa using fun hh => h.1 hh.symm
    rw [List.cons_append, List.erase_cons, if_neg (by simp [ha]),
      ih (fun hm => h (List.mem_cons_of_mem a hm))]

/-- The effect of one `start_span` call, written out as a record. -/
theorem start_span_eq (w : World) (name : String) :
    start_span w name =
      ({ w with
          arena := w.arena ++
            [{ name := name, span_id := w.arena.length,
               parent_span := startParent w, attributes := [],
               start_time := some w.clock, end_time := none, children := [] }],
          spans_list := w.spans_list ++ [w.arena.length],
          ctx_span_id := some w.arena.length,
          current := some w.arena.length,
          clock := w.clock + 1 }, w.arena.length) := by
  simp [start_span, set_current_span, updateSpan, getD_append_len, set_append_len]

/-- `end_span` with no current span and an empty list only logs a warning. -/
theorem end_span_empty (w : World) (hcur : w.current = none)
    (hsl : w.spans_list = []) :
    end_span w = ({ w with warn_count := w.warn_count + 1 }, none) := by
  simp [end_span, get_current_span, hcur, hsl]

/-- The effect of one `end_span` call on a reachable world with at least one
open span, written out as a record. -/
theorem end_span_nonempty (w : World) (hInv : Inv w) (l' : List Nat) (i : Nat)
    (hl : w.spans_list = l' ++ [i]) :
    end_span w =
      ({ w with
          arena := updateSpan w.arena i (fun s => { s with end_time := some w.clock }),
          spans_list := l',
          ctx_span_id := ((w.arena.getD i default).parent_span).spanId,
          current := l'.getLast?,
          exported := w.exported ++
            [[mkSpanData
                (updateSpan w.arena i (fun s => { s with end_time := some w.clock })) i]],
          clock := w.clock + 1 }, some i) := by
  have hcur : w.current = some i := by
    rw [hInv.cur_last, hl, List.getLast?_concat]
  have hmemi : i ∈ w.spans_list := by rw [hl]; simp
  have hi : i < w.arena.length := hInv.bounded i hmemi
  have hlen : (updateSpan w.arena i
      (fun s => { s with end_time := some w.clock })).length = w.arena.length := by
    simp [updateSpan]
  have hgd : (updateSpan w.arena i
        (fun s => { s with end_time := some w.clock })).getD i default =
      { w.arena.getD i default with end_time := some w.clock } := by
    unfold updateSpan
    exact getD_set_self w.arena _ default i hi
  have hnotmem : i ∉ l' := by
    have hpw : List.Pairwise (· < ·) w.spans_list :=
      List.chain'_iff_pairwise.mp hInv.increasing
    rw [hl] at hpw
    intro hmem
    have := (List.pairwise_append.mp hpw).2.2 i hmem i (by simp)
    exact Nat.lt_irrefl i this
  have hchild : ((updateSpan w.arena i
        (fun s => { s with end_time := some w.clock })).getD i default).children = [] := by
    rw [hgd]
    exact hInv.no_children i
  have hcurupd : (match (w.arena.getD i default).parent_span with
      | ParentRef.span j => some j
      | ParentRef.nullCtx _ => (none : Option Nat)) = l'.getLast? := by
    rcases List.eq_nil_or_concat l' with hnil | ⟨l'', a, hcat⟩
    · subst hnil
      have hhead : w.spans_list.head? = some i := by rw [hl]; rfl
      have := hInv.head_root i (by rw [hhead]; rfl)
      cases hpar : (w.arena.getD i default).parent_span with
      | nullCtx sid => rfl
      | span j => rw [hpar] at this; simp [ParentRef.isNull] at this
    · rw [List.concat_eq_append] at hcat
      subst hcat
      have hch := hInv.chain
      rw [hl] at hch
      have hlink := (List.chain'_append.mp hch).2.2 a
        (by rw [List.getLast?_concat]; rfl) i rfl
      rw [hlink, List.getLast?_concat]
  have herase : (l' ++ [i]).erase i = l' := erase_append_last l' i hnotmem
  unfold end_span get_current_span finishSpan
  rw [hcur]
  simp only [hl, hgd]
  cases hpar : (w.arena.getD i default).parent_span with
  | nullCtx sid =>
    rw [hpar] at hcurupd
    dsimp only at hcurupd
    dsimp only [set_current_span, get_span_datas]
    rw [if_pos (show i ∈ l' ++ [i] by simp), hlen,
      spanTree_single _ _ _ hchild, herase, ← hcurupd]
    rfl
  | span j =>
    rw [hpar] at hcurupd
    dsimp only at hcurupd
    dsimp only [set_current_span, get_span_datas]
    rw [if_pos (show i ∈ l' ++ [i] by simp), hlen,
      spanTree_single _ _ _ hchild, herase, ← hcurupd]
    rfl

theorem mem_of_getLast? {α : Type} {l : List α} {a : α} (h : l.getLast? = some a) :
    a ∈ l := by
  induction l with
  | nil => simp at h
  | cons x t ih =>
    cases t with
    | nil => simp at h; simp [h]
    | cons y t' =>
      rw [List.getLast?_cons_cons] at h
      exact List.mem_cons_of_mem x (ih h)

/-- `start_span` preserves the invariant. -/
theorem inv_start (w : World) (name : String) (h : Inv w) :
    Inv (start_span w name).1 := by
  rw [start_span_eq]
  refine
    { cur_last := ?_, bounded := ?_, increasing := ?_, chain := ?_,
      head_root := ?_, span_ids := ?_, no_children := ?_, open_unfinished := ?_,
      closed_finished := ?_, open_unexported := ?_, closed_exported := ?_,
      export_bounded := ?_ }
  · dsimp only
    rw [List.getLast?_concat]
  · intro i hi
    dsimp only at hi ⊢
    rw [List.length_append]
    rcases List.mem_append.mp hi with hold | hnew
    · exact Nat.lt_succ_of_lt (h.bounded i hold)
    · simp only [List.mem_singleton] at hnew
      subst hnew
      simp
  · dsimp only
    refine List.chain'_append.mpr ⟨h.increasing, List.chain'_singleton _, ?_⟩
    intro x hx y hy
    simp only [List.head?_cons, Option.mem_def, Option.some.injEq] at hy
    subst hy
    exact h.bounded x (mem_of_getLast? (Option.mem_def.mp hx))
  · dsimp only
    refine List.chain'_append.mpr ⟨?_, List.chain'_singleton _, ?_⟩
    · refine chain'_congr_mem ?_ h.chain
      intro a _ b hb hr
      rw [getD_append_lt _ _ _ b (h.bounded b hb)]
      exact hr
    · intro x hx y hy
      simp only [List.head?_cons, Option.mem_def, Option.some.injEq] at hy
      subst hy
      rw [getD_append_len]
      have hcur : w.current = some x := by
        rw [h.cur_last]; exact Option.mem_def.mp hx
      simp [startParent, get_current_span, hcur]
  · intro hd hmem
    dsimp only at hmem ⊢
    cases hls : w.spans_list with
    | nil =>
      rw [hls] at hmem
      simp only [List.nil_append, List.head?_cons, Option.mem_def,
        Option.some.injEq] at hmem
      subst hmem
      rw [getD_append_len]
      have hcur : w.current = none := by rw [h.cur_last, hls]; rfl
      simp [startParent, get_current_span, hcur, ParentRef.isNull]
    | cons a t =>
      rw [hls] at hmem
      simp only [List.cons_append, List.head?_cons, Option.mem_def,
        Option.some.injEq] at hmem
      rw [← hmem]
      have hmema : a ∈ w.spans_list := by rw [hls]; exact List.mem_cons_self _ _
      rw [getD_append_lt _ _ _ a (h.bounded a hmema)]
      exact h.head_root a (by rw [hls]; rfl)
  · intro i hlt
    dsimp only at hlt ⊢
    rw [List.length_append] at hlt
    simp only [List.length_cons, List.length_nil] at hlt
    rcases Nat.lt_succ_iff_lt_or_eq.mp hlt with hlt' | heq
    · rw [getD_append_lt _ _ _ i hlt']
      exact h.span_ids i hlt'
    · subst heq
      rw [getD_append_len]
  · intro i
    dsimp only
    rcases Nat.lt_trichotomy i w.arena.length with hlt | heq | hgt
    · rw [getD_append_lt _ _ _ i hlt]
      exact h.no_children i
    · subst heq
      rw [getD_append_len]
    · rw [getD_of_len_le _ _ i (by rw [List.length_append]; simpa using hgt)]
      rfl
  · intro i hi
    dsimp only at hi ⊢
    rcases List.mem_append.mp hi with hold | hnew
    · rw [getD_append_lt _ _ _ i (h.bounded i hold)]
      exact h.open_unfinished i hold
    · simp only [List.mem_singleton] at hnew
      subst hnew
      rw [getD_append_len]
  · intro i hlt hnot
    dsimp only at hlt hnot ⊢
    rw [List.length_append] at hlt
    simp only [List.length_cons, List.length_nil] at hlt
    have hne : i ≠ w.arena.length := by
      intro heq
      exact hnot (by rw [heq]; exact List.mem_append_right _ (List.mem_singleton.mpr rfl))
    have hlt' : i < w.arena.length := by omega
    rw [getD_append_lt _ _ _ i hlt']
    exact h.closed_finished i hlt' (fun hm => hnot (List.mem_append_left _ hm))
  · intro i hi
    dsimp only at hi
    show ((w.exported).flatten).countP (fun d => d.span_id == i) = 0
    rcases List.mem_append.mp hi with hold | hnew
    · exact h.open_unexported i hold
    · simp only [List.mem_singleton] at hnew
      subst hnew
      refine List.countP_eq_zero.mpr ?_
      intro d hd
      have := h.export_bounded d hd
      simp only [beq_iff_eq]
      omega
  · intro i hlt hnot
    dsimp only at hlt hnot
    rw [List.length_append] at hlt
    simp only [List.length_cons, List.length_nil] at hlt
    have hne : i ≠ w.arena.length := by
      intro heq
      exact hnot (by rw [heq]; exact List.mem_append_right _ (List.mem_singleton.mpr rfl))
    have hlt' : i < w.arena.length := by omega
    show ((w.exported).flatten).countP (fun d => d.span_id == i) = 1
    exact h.closed_exported i hlt' (fun hm => hnot (List.mem_append_left _ hm))
  · intro d hd
    dsimp only at hd ⊢
    rw [List.length_append]
    have : d.span_id < w.arena.length := h.export_bounded d hd
    omega

theorem exportCount_snoc (E : List (List SpanData)) (b : List SpanData)
    (p : SpanData → Bool) :
    ((E ++ [b]).flatten).countP p = (E.flatten).countP p + b.countP p := by
  rw [List.flatten_append, List.countP_append]
  simp

/-- `end_span` preserves the invariant. -/
theorem inv_end (w : World) (h : Inv w) : Inv (end_span w).1 := by
  rcases List.eq_nil_or_concat w.spans_list with hnil | ⟨l', i, hcat⟩
  · rw [end_span_empty w (by rw [h.cur_last, hnil]; rfl) hnil]
    exact
      { cur_last := h.cur_last, bounded := h.bounded, increasing := h.increasing,
        chain := h.chain, head_root := h.head_root, span_ids := h.span_ids,
        no_children := h.no_children, open_unfinished := h.open_unfinished,
        closed_finished := h.closed_finished,
        open_unexported := h.open_unexported,
        closed_exported := h.closed_exported,
        export_bounded := h.export_bounded }
  · rw [List.concat_eq_append] at hcat
    rw [end_span_nonempty w h l' i hcat]
    have hmemi : i ∈ w.spans_list := by rw [hcat]; simp
    have hi : i < w.arena.length := h.bounded i hmemi
    have hnotmem : i ∉ l' := by
      have hpw : List.Pairwise (· < ·) w.spans_list :=
        List.chain'_iff_pairwise.mp h.increasing
      rw [hcat] at hpw
      intro hmem
      have := (List.pairwise_append.mp hpw).2.2 i hmem i (by simp)
      exact Nat.lt_irrefl i this
    have gself : (updateSpan w.arena i
          (fun s => { s with end_time := some w.clock })).getD i default =
        { w.arena.getD i default with end_time := some w.clock } := by
      unfold updateSpan
      exact getD_set_self w.arena _ default i hi
    have gne : ∀ j, j ≠ i → (updateSpan w.arena i
          (fun s => { s with end_time := some w.clock })).getD j default =
        w.arena.getD j default := by
      intro j hj
      unfold updateSpan
      exact getD_set_ne w.arena _ default i j hj
    have hlen : (updateSpan w.arena i
        (fun s => { s with end_time := some w.clock })).length = w.arena.length := by
      simp [updateSpan]
    have hsubset : ∀ j ∈ l', j ∈ w.spans_list := by
      intro j hj
      rw [hcat]
      exact List.mem_append_left _ hj
    have hne_of_mem : ∀ j ∈ l', j ≠ i := by
      intro j hj he
      exact hnotmem (he ▸ hj)
    have hnotin : ∀ j, j ≠ i → j ∉ l' → j ∉ w.spans_list := by
      intro j hji hjl hmem
      rw [hcat] at hmem
      rcases List.mem_append.mp hmem with hm | hm
      · exact hjl hm
      · simp only [List.mem_singleton] at hm
        exact hji hm
    have hdspan : (mkSpanData (updateSpan w.arena i
        (fun s => { s with end_time := some w.clock })) i).span_id = i := by
      unfold mkSpanData
      rw [gself]
      exact h.span_ids i hi
    refine
      { cur_last := rfl, bounded := ?_, increasing := ?_, chain := ?_,
        head_root := ?_, span_ids := ?_, no_children := ?_,
        open_unfinished := ?_, closed_finished := ?_, open_unexported := ?_,
        closed_exported := ?_, export_bounded := ?_ }
    · intro j hj
      dsimp only at hj ⊢
      rw [hlen]
      exact h.bounded j (hsubset j hj)
    · dsimp only
      have := h.increasing
      rw [hcat] at this
      exact (List.chain'_append.mp this).1
    · dsimp only
      have := h.chain
      rw [hcat] at this
      refine chain'_congr_mem ?_ (List.chain'_append.mp this).1
      intro a _ b hb hr
      rw [gne b (hne_of_mem b hb)]
      exact hr
    · intro hd hmem
      dsimp only at hmem ⊢
      cases hls : l' with
      | nil => rw [hls] at hmem; simp at hmem
      | cons a t =>
        rw [hls] at hmem
        simp only [List.head?_cons, Option.mem_def, Option.some.injEq] at hmem
        rw [← hmem]
        have hal : a ∈ l' := by rw [hls]; exact List.mem_cons_self _ _
        rw [gne a (hne_of_mem a hal)]
        exact h.head_root a (by rw [hcat, hls]; rfl)
    · intro j hj
      dsimp only at hj ⊢
      rw [hlen] at hj
      by_cases hji : j = i
      · subst hji
        rw [gself]
        exact h.span_ids j hj
      · rw [gne j hji]
        exact h.span_ids j hj
    · intro j
      dsimp only
      by_cases hji : j = i
      · subst hji
        rw [gself]
        exact h.no_children j
      · rw [gne j hji]
        exact h.no_children j
    · intro j hj
      dsimp only at hj ⊢
      rw [gne j (hne_of_mem j hj)]
      exact h.open_unfinished j (hsubset j hj)
    · intro j hj hnot
      dsimp only at hj hnot ⊢
      rw [hlen] at hj
      by_cases hji : j = i
      · subst hji
        rw [gself]
        simp
      · rw [gne j hji]
        exact h.closed_finished j hj (hnotin j hji hnot)
    · intro j hj
      dsimp only at hj
      show ((w.exported ++ [[mkSpanData (updateSpan w.arena i
          (fun s => { s with end_time := some w.clock })) i]]).flatten).countP
          (fun d => d.span_id == j) = 0
      rw [exportCount_snoc]
      have h0 : exportCount w j = 0 := h.open_unexported j (hsubset j hj)
      have hb : ((mkSpanData (updateSpan w.arena i
          (fun s => { s with end_time := some w.clock })) i).span_id == j) = false := by
        rw [hdspan]
        simpa using fun he => hne_of_mem j hj he.symm
      simp only [List.countP_cons, List.countP_nil, hb, cond_false]
      exact h0
    · intro j hj hnot
      dsimp only at hj hnot
      rw [hlen] at hj
      show ((w.exported ++ [[mkSpanData (updateSpan w.arena i
          (fun s => { s with end_time := some w.clock })) i]]).flatten).countP
          (fun d => d.span_id == j) = 1
      rw [exportCount_snoc]
      by_cases hji : j = i
      · subst hji
        have h0 : exportCount w j = 0 := h.open_unexported j hmemi
        have hb : ((mkSpanData (updateSpan w.arena j
            (fun s => { s with end_time := some w.clock })) j).span_id == j) = true := by
          rw [hdspan]; simp
        have h0' : List.countP (fun d => d.span_id == j) w.exported.flatten = 0 := h0
        simp [h0', List.countP_cons, hb]
      · have h1 : exportCount w j = 1 :=
          h.closed_exported j hj (hnotin j hji hnot)
        have hb : ((mkSpanData (updateSpan w.arena i
            (fun s => { s with end_time := some w.clock })) i).span_id == j) = false := by
          rw [hdspan]
          simpa using fun he => hji he.symm
        have h1' : List.countP (fun d => d.span_id == j) w.exported.flatten = 1 := h1
        simp [h1', List.countP_cons, hb]
    · intro d hd
      dsimp only [exportedFlat] at hd
      dsimp only
      rw [hlen]
      rw [List.flatten_append] at hd
      rcases List.mem_append.mp hd with hold | hnew
      · exact h.export_bounded d hold
      · simp only [List.flatten, List.append_nil, List.mem_singleton] at hnew
        rw [hnew, hdspan]
        exact hi

/-- Each tracer call preserves the invariant. -/
theorem inv_step (w : World) (op : Op) (h : Inv w) : Inv (step w op) := by
  cases op with
  | start name => exact inv_start w name h
  | stop => exact inv_end w h

/-- Any interleaving of tracer calls preserves the invariant. -/
theorem inv_run (w : World) (ops : List Op) (h : Inv w) : Inv (run w ops) := by
  induction ops generalizing w with
  | nil => exact h
  | cons op t ih => exact ih (step w op) (inv_step w op h)

/-- The cumulative effect of consecutive `start_span` calls. -/
theorem run_starts (names : List String) :
    ∀ w : World,
      (run w (names.map Op.start)).spans_list =
        w.spans_list ++ List.range' w.arena.length names.length ∧
      (run w (names.map Op.start)).arena.length =
        w.arena.length + names.length ∧
      (run w (names.map Op.start)).exported = w.exported := by
  induction names with
  | nil => intro w; simp [run]
  | cons name t ih =>
    intro w
    have hstep : run w ((name :: t).map Op.start) =
        run (step w (Op.start name)) (t.map Op.start) := rfl
    have hw1 : step w (Op.start name) = (start_span w name).1 := rfl
    have hsl : (step w (Op.start name)).spans_list =
        w.spans_list ++ [w.arena.length] := by
      rw [hw1, start_span_eq]
    have hal : (step w (Op.start name)).arena.length = w.arena.length + 1 := by
      rw [hw1, start_span_eq]
      simp
    have hex : (step w (Op.start name)).exported = w.exported := by
      rw [hw1, start_span_eq]
    obtain ⟨h1, h2, h3⟩ := ih (step w (Op.start name))
    refine ⟨?_, ?_, ?_⟩
    · rw [hstep, h1, hsl, hal, List.append_assoc, List.length_cons,
        List.range'_succ]
      rfl
    · rw [hstep, h2, hal]
      simp only [List.length_map, List.length_cons]
      omega
    · rw [hstep, h3, hex]

theorem getLast?_range (N : Nat) (h : 0 < N) :
    (List.range N).getLast? = some (N - 1) := by
  cases N with
  | zero => exact absurd h (Nat.lt_irrefl 0)
  | succ n => rw [List.range_succ, List.getLast?_concat]; rfl

/-- The cumulative effect of ending every open span, one `end_span` per open
span, from a reachable world: the returned spans are the open ones in reverse
order and the list drains completely. -/
theorem endRun_spec (l : List Nat) :
    ∀ w : World, Inv w → w.spans_list = l →
      (endRun w l.length).2 = l.reverse.map some ∧
      (endRun w l.length).1.spans_list = [] ∧
      (endRun w l.length).1.arena.length = w.arena.length ∧
      (endRun w l.length).1.exported.length = w.exported.length + l.length ∧
      Inv (endRun w l.length).1 := by
  induction l using List.reverseRecOn with
  | nil =>
    intro w hInv hsl
    exact ⟨rfl, hsl, rfl, rfl, hInv⟩
  | append_singleton l' a ih =>
    intro w hInv hsl
    have hend := end_span_nonempty w hInv l' a hsl
    have hInv1 : Inv (end_span w).1 := inv_end w hInv
    have hlen1 : (end_span w).1.arena.length = w.arena.length := by
      rw [hend]
      simp [updateSpan]
    have hsl1 : (end_span w).1.spans_list = l' := by rw [hend]
    have hex1 : (end_span w).1.exported.length = w.exported.length + 1 := by
      rw [hend]
      simp
    have hrun : endRun w (l' ++ [a]).length =
        ((endRun (end_span w).1 l'.length).1,
          (end_span w).2 :: (endRun (end_span w).1 l'.length).2) := by
      rw [List.length_append, List.length_singleton]
      rfl
    obtain ⟨i1, i2, i3, i4, i5⟩ := ih (end_span w).1 hInv1 hsl1
    refine ⟨?_, ?_, ?_, ?_, ?_⟩
    · rw [hrun]
      simp only [i1]
      rw [hend]
      simp
    · rw [hrun]; exact i2
    · rw [hrun]; rw [i3, hlen1]
    · rw [hrun, i4, hex1]
      rw [List.length_append, List.length_singleton]
      omega
    · rw [hrun]; exact i5

theorem finishFuel_of_empty (w : World) (hsl : w.spans_list = []) :
    ∀ fuel, finishFuel fuel w = w := by
  intro fuel
  cases fuel with
  | zero => rfl
  | succ n => simp [finishFuel, hsl]

/-- The cumulative effect of `finish()` from a reachable world: fuel equal to
the number of open spans drains the list and adds one export batch per span. -/
theorem finish_spec (l : List Nat) :
    ∀ w : World, Inv w → w.spans_list = l →
      (finishFuel l.length w).spans_list = [] ∧
      (finishFuel l.length w).arena.length = w.arena.length ∧
      (finishFuel l.length w).exported.length = w.exported.length + l.length ∧
      Inv (finishFuel l.length w) ∧
      (∀ extra, finishFuel (l.length + extra) w = finishFuel l.length w) := by
  induction l using List.reverseRecOn with
  | nil =>
    intro w hInv hsl
    refine ⟨?_, ?_, ?_, ?_, ?_⟩
    · rw [finishFuel_of_empty w hsl]; exact hsl
    · rw [finishFuel_of_empty w hsl]
    · rw [finishFuel_of_empty w hsl]; rfl
    · rw [finishFuel_of_empty w hsl]; exact hInv
    · intro extra
      rw [finishFuel_of_empty w hsl, finishFuel_of_empty w hsl]
  | append_singleton l' a ih =>
    intro w hInv hsl
    have hend := end_span_nonempty w hInv l' a hsl
    have hInv1 : Inv (end_span w).1 := inv_end w hInv
    have hlen1 : (end_span w).1.arena.length = w.arena.length := by
      rw [hend]; simp [updateSpan]
    have hsl1 : (end_span w).1.spans_list = l' := by rw [hend]
    have hex1 : (end_span w).1.exported.length = w.exported.length + 1 := by
      rw [hend]; simp
    have hne : w.spans_list.isEmpty = false := by
      rw [hsl]
      rcases l' with _ | ⟨b, t⟩ <;> rfl
    have hstep : ∀ fuel, finishFuel (fuel + 1) w = finishFuel fuel (end_span w).1 := by
      intro fuel
      show (if w.spans_list.isEmpty = true then w
        else finishFuel fuel (end_span w).1) = finishFuel fuel (end_span w).1
      simp [hne]
    have hlfuel : (l' ++ [a]).length = l'.length + 1 := by
      rw [List.length_append, List.length_singleton]
    obtain ⟨i1, i2, i3, i4, i5⟩ := ih (end_span w).1 hInv1 hsl1
    refine ⟨?_, ?_, ?_, ?_, ?_⟩
    · rw [hlfuel, hstep]; exact i1
    · rw [hlfuel, hstep, i2, hlen1]
    · rw [hlfuel, hstep, i3, hex1]
      omega
    · rw [hlfuel, hstep]; exact i4
    · intro extra
      have harith : (l' ++ [a]).length + extra = (l'.length + extra) + 1 := by
        rw [hlfuel]; omega
      rw [harith, hstep, i5 extra, hlfuel, hstep]

/-! ### Claim theorems -/

/-- C1: for every sequence of `start_span` and `end_span` calls on a single
`ContextTracer` within one logical task, at every point between calls the most
recently appended span of `_spans_list` is exactly the span the context store
reports as current for that task; when the list is empty the current-span
binding is none (`getLast?` of the empty list). -/
theorem c1_stack_top_is_current (root_id : Nat) (ops : List Op) :
    current_span (run (initWorld root_id) ops) =
      (run (initWorld root_id) ops).spans_list.getLast? :=
  (inv_run (initWorld root_id) ops (inv_init root_id)).cur_last

/-- C2: after `N >= 1` nested `start_span` calls on one fresh `ContextTracer`
with no intervening `end_span`, the open-span stack has depth `N` and
`current_span()` returns the N-th (most recently started) span, arena index
`N - 1`; `N` subsequent `end_span` calls then end the spans in strictly
reverse creation order (`N - 1` down to `0`), after which the stack is empty
and `current_span()` returns none. -/
theorem c2_nested_spans_lifo (root_id N : Nat) (names : List String)
    (hN : 0 < N) (hlen : names.length = N) :
    (run (initWorld root_id) (names.map Op.start)).spans_list.length = N ∧
    current_span (run (initWorld root_id) (names.map Op.start)) = some (N - 1) ∧
    (endRun (run (initWorld root_id) (names.map Op.start)) N).2 =
      (List.range N).reverse.map some ∧
    (endRun (run (initWorld root_id) (names.map Op.start)) N).1.spans_list = [] ∧
    current_span (endRun (run (initWorld root_id) (names.map Op.start)) N).1 =
      none := by
  obtain ⟨h1, _h2, _h3⟩ := run_starts names (initWorld root_id)
  have hsl : (run (initWorld root_id) (names.map Op.start)).spans_list =
      List.range N := by
    rw [h1, hlen]
    show List.range' 0 N = List.range N
    rw [List.range_eq_range']
  have hInv : Inv (run (initWorld root_id) (names.map Op.start)) :=
    inv_run _ _ (inv_init root_id)
  have hcur : current_span (run (initWorld root_id) (names.map Op.start)) =
      some (N - 1) := by
    show (run (initWorld root_id) (names.map Op.start)).current = _
    rw [hInv.cur_last, hsl, getLast?_range N hN]
  obtain ⟨e1, e2, _e3, _e4, e5⟩ :=
    endRun_spec (List.range N) (run (initWorld root_id) (names.map Op.start))
      hInv hsl
  rw [List.length_range] at e1 e2 e5
  refine ⟨by rw [hsl]; exact List.length_range N, hcur, e1, e2, ?_⟩
  show (endRun (run (initWorld root_id) (names.map Op.start)) N).1.current = none
  rw [e5.cur_last, e2]
  rfl

/-- C2 witness: two nested spans on a fresh tracer, then two `end_span` calls. -/
theorem c2_nested_spans_lifo_witness :
    (run (initWorld 7) (["outer", "inner"].map Op.start)).spans_list.length = 2 ∧
    current_span (run (initWorld 7) (["outer", "inner"].map Op.start)) = some 1 ∧
    (endRun (run (initWorld 7) (["outer", "inner"].map Op.start)) 2).2 =
      (List.range 2).reverse.map some ∧
    (endRun (run (initWorld 7) (["outer", "inner"].map Op.start)) 2).1.spans_list
      = [] ∧
    current_span (endRun (run (initWorld 7)
      (["outer", "inner"].map Op.start)) 2).1 = none :=
  c2_nested_spans_lifo 7 2 ["outer", "inner"] (by decide) (by decide)

/-- C3: a span started by the tracer stays in `_spans_list` unexported and
unfinished while open; once it has left the list it is finished (end time set)
and its record has been handed to the exporter exactly once; and after
`finish()` every span ever created has been exported exactly once - never zero
times, never more than once (the tracer never populates SDK child lists, so no
span reappears inside a later-ended ancestor's export batch). -/
theorem c3_exported_exactly_once (root_id : Nat) (ops : List Op) (i : Nat)
    (hi : i < (run (initWorld root_id) ops).arena.length) :
    (i ∈ (run (initWorld root_id) ops).spans_list →
      exportCount (run (initWorld root_id) ops) i = 0 ∧
      ((run (initWorld root_id) ops).arena.getD i default).end_time = none) ∧
    (i ∉ (run (initWorld root_id) ops).spans_list →
      exportCount (run (initWorld root_id) ops) i = 1 ∧
      ((run (initWorld root_id) ops).arena.getD i default).end_time ≠ none) ∧
    exportCount (finishTracer (run (initWorld root_id) ops)) i = 1 := by
  have hInv : Inv (run (initWorld root_id) ops) :=
    inv_run _ _ (inv_init root_id)
  obtain ⟨f1, f2, _f3, f4, _f5⟩ :=
    finish_spec (run (initWorld root_id) ops).spans_list
      (run (initWorld root_id) ops) hInv rfl
  refine ⟨?_, ?_, ?_⟩
  · intro hmem
    exact ⟨hInv.open_unexported i hmem, hInv.open_unfinished i hmem⟩
  · intro hnot
    exact ⟨hInv.closed_exported i hi hnot, hInv.closed_finished i hi hnot⟩
  · have hi' : i < (finishTracer (run (initWorld root_id) ops)).arena.length := by
      show i < (finishFuel (run (initWorld root_id) ops).spans_list.length
        (run (initWorld root_id) ops)).arena.length
      rw [f2]
      exact hi
    have hnot : i ∉ (finishTracer (run (initWorld root_id) ops)).spans_list := by
      show i ∉ (finishFuel (run (initWorld root_id) ops).spans_list.length
        (run (initWorld root_id) ops)).spans_list
      rw [f1]
      exact List.not_mem_nil i
    exact f4.closed_exported i hi' hnot

/-- C3 witness: one span started and ended on a fresh tracer - exported once,
finished, and still exported exactly once after `finish()`. -/
theorem c3_exported_exactly_once_witness :
    exportCount (run (initWorld 7) [Op.start "s", Op.stop]) 0 = 1 ∧
    ((run (initWorld 7) [Op.start "s", Op.stop]).arena.getD 0
      default).end_time ≠ none ∧
    exportCount (finishTracer (run (initWorld 7) [Op.start "s", Op.stop])) 0 = 1 := by
  have h := c3_exported_exactly_once 7 [Op.start "s", Op.stop] 0 (by decide)
  exact ⟨(h.2.1 (by decide)).1, (h.2.1 (by decide)).2, h.2.2⟩

/-- C5: on any reachable tracer state with `K` open spans, `finish()`
terminates (any extra fuel beyond `K` loop iterations changes nothing), makes
exactly `K` additional `exporter.export` calls - one batch per ended span -
and leaves `_spans_list` empty. -/
theorem c5_finish_exports_all (root_id : Nat) (ops : List Op) :
    (finishTracer (run (initWorld root_id) ops)).spans_list = [] ∧
    (finishTracer (run (initWorld root_id) ops)).exported.length =
      (run (initWorld root_id) ops).exported.length +
        (run (initWorld root_id) ops).spans_list.length ∧
    (∀ extra,
      finishFuel ((run (initWorld root_id) ops).spans_list.length + extra)
        (run (initWorld root_id) ops) =
      finishTracer (run (initWorld root_id) ops)) := by
  have hInv : Inv (run (initWorld root_id) ops) :=
    inv_run _ _ (inv_init root_id)
  obtain ⟨f1, _f2, f3, _f4, f5⟩ :=
    finish_spec (run (initWorld root_id) ops).spans_list
      (run (initWorld root_id) ops) hInv rfl
  exact ⟨f1, f3, f5⟩

/-! ### AsyncSpan, the aioredis wrapper and the sanic middleware -/

/-- A Python value passed as `AsyncSpan.__init__`'s `function` parameter or as
a call argument: a string, a callable (identified by an opaque id), or `None`. -/
inductive InitArg
  | strArg (s : String)
  | callableArg (f : Nat)
  | noneArg
deriving DecidableEq, Repr

/-- The state of an `AsyncSpan` object: its `name` and `function` slots. -/
structure AsyncSpanObj where
  name : Option String
  function : Option Nat
deriving DecidableEq, Repr

/-- `AsyncSpan.__init__(function, name=None)`: a string first argument becomes
the span name, a callable becomes the wrapped function, anything else raises
`TypeError`. -/
def asyncSpanInit (function : InitArg) (name : Option String) :
    Except PyErr AsyncSpanObj :=
  match function with
  | .strArg s => .ok { name := some s, function := none }
  | .callableArg f => .ok { name := name, function := some f }
  | .noneArg =>
    .error (.typeError
      "First parameter must be either a span name or a callable function")

/-- The module-level factory `def span(name=None): return AsyncSpan(name)`. -/
def spanFactory (name : Option String) : Except PyErr AsyncSpanObj :=
  asyncSpanInit
    (match name with
      | none => InitArg.noneArg
      | some s => InitArg.strArg s)
    none

/-- The span name chosen in `AsyncSpan.__aenter__`: the explicit name when one
was given, else `"[func] "` followed by the wrapped function's identifier. -/
def aenterSpanName (o : AsyncSpanObj) (funcName : String) : String :=
  match o.name with
  | some n => n
  | none => "[func] " ++ funcName

/-- `AsyncSpan.__aenter__`: fetch the tracer from the context store (raising
on `None` when no tracer is bound), start a span and rename it. -/
def asyncSpanAenter (o : AsyncSpanObj) (funcName : String) (w : World) :
    Except PyErr (World × Nat) :=
  if get_opencensus_tracer_active w = false then
    .error (.attrError "NoneType has no start_span")
  else
    let p := start_span w "span"
    .ok ({ p.1 with arena := (updateSpan p.1.arena p.2
      (fun s => { s with name := aenterSpanName o funcName })) }, p.2)

/-- `AsyncSpan.__aexit__`: on an exception, annotate the current span with
`error`/`error.message`, end it, and re-raise the very same exception
(returned as the second component); on normal exit just end the span. -/
def asyncSpanAexit (w : World) (exc : Option String) :
    Except PyErr (World × Option String) :=
  if get_opencensus_tracer_active w = false then
    .error (.attrError "NoneType has no attribute")
  else
    match exc with
    | some e => do
      let w1 ← add_attribute_to_current_span w "error" (.b true)
      let w2 ← add_attribute_to_current_span w1 "error.message" (.s e)
      .ok ((end_span w2).1, some e)
    | none => .ok ((end_span w).1, none)

/-- Values returned by `AsyncSpan.__call__` when it does not raise: the
wrapped call's result, or the `AsyncSpan` object itself (the decorator-priming
path that stores the callable). -/
inductive CallResult
  | value (v : Nat)
  | selfObj (o : AsyncSpanObj)
deriving DecidableEq, Repr

/-- `AsyncSpan.__call__`: with a wrapped function set the body executes
`with self:` - a synchronous context-manager entry on an object that defines
only `__aenter__`/`__aexit__` and no `__enter__`/`__exit__` - so Python raises
before the wrapped function is ever invoked and before any tracer state is
touched; with no function set it stores a callable first argument and returns
itself, or raises `TypeError`. -/
def asyncSpanCall (o : AsyncSpanObj) (w : World) (callArgs : List InitArg) :
    Except PyErr (World × CallResult) :=
  match o.function with
  | some _ =>
    .error (.attrError
      "AsyncSpan does not define a synchronous context manager entry")
  | none =>
    match callArgs.head? with
    | some (.callableArg g) => .ok (w, .selfObj { o with function := some g })
    | _ =>
      .error (.typeError
        "Decorated function not yet set. Must be called with a callable function")

/-- Connection metadata read off the aioredis `RedisConnection` instance. -/
structure RedisInstance where
  db : Nat
  address : String × Nat
  encoding : String
deriving DecidableEq, Repr

/-- The wrapped `RedisConnection.execute` call's result: byte-like of a given
length, or anything else. -/
inductive RedisResult
  | bytes (len : Nat)
  | other
deriving DecidableEq, Repr

/-- `wrap_execute(wrapped, instance, args, kwargs)` from the aioredis
integration: read `args[0]` as the command (raising `IndexError` on an empty
argument list), call straight through when no tracer is bound, otherwise start
a span named after the command, annotate connection metadata and the optional
key, then on success annotate the response size and end the span, and on
failure annotate `error`/`error.message`, end the span and re-raise the same
exception. -/
def wrap_execute (w : World) (inst : RedisInstance)
    (wrapped : List String → Except String RedisResult)
    (args : List String) : Except PyErr (World × Except String RedisResult) :=
  match args with
  | [] => .error .indexError
  | command :: rest =>
    if get_opencensus_tracer_active w = false then
      .ok (w, wrapped args)
    else
      let p := start_span w "span"
      let w1 : World := { p.1 with arena := (updateSpan p.1.arena p.2
        (fun s => { s with name := "[aioredis] " ++ command })) }
      do
        let w2 ← add_attribute_to_current_span w1 "redis.db" (.n inst.db)
        let w3 ← add_attribute_to_current_span w2 "redis.address" (.s inst.address.1)
        let w4 ← add_attribute_to_current_span w3 "redis.port" (.n inst.address.2)
        let w5 ← add_attribute_to_current_span w4 "redis.encoding" (.s inst.encoding)
        let w6 ← (match rest.head? with
          | some key => add_attribute_to_current_span w5 "redis.key" (.s key)
          | none => Except.ok w5)
        match wrapped args with
        | .ok result =>
          let size := match result with
            | RedisResult.bytes n => n
            | RedisResult.other => 0
          let w7 ← add_attribute_to_current_span w6 "redis.resposne.size" (.n size)
          Except.ok ((end_span w7).1, Except.ok result)
        | .error e => do
          let w7 ← add_attribute_to_current_span w6 "error" (.b true)
          let w8 ← add_attribute_to_current_span w7 "error.message" (.s e)
          Except.ok ((end_span w8).1, Except.error e)

/-- An inbound sanic request, with the fields the middleware reads. -/
structure Request where
  scheme : String
  url : String
  method : String
  path : String
  host : String
  ip : String
  headers : List (String × String)

/-- The middleware's environment around one request: the external
`utils.disable_tracing_url` check against `blacklist_paths`, the method
denylist, the propagator's parse of the inbound headers (`from_header` and
`trace_options.enabled`), the sampler's decision, the router's answer
(`none` models the `NotFound` branch) and the configured service name. -/
structure MwEnv where
  disable_url : String → Bool
  blacklist_methods : Option (List String)
  from_header : Bool
  trace_enabled : Bool
  should_sample : Bool
  route : Option String
  service_name : String

/-- A header lookup on the request. -/
def headerLookup (req : Request) (h : String) : Option String :=
  (req.headers.find? (fun p => p.1 = h)).map Prod.snd

/-- Add the `http.headers.<h>` attribute when header `h` is present. -/
def addHeaderAttr (req : Request) (h : String) (w : World) :
    Except PyErr World :=
  match headerLookup req h with
  | some v => add_attribute_to_current_span w ("http.headers." ++ h) (.s v)
  | none => .ok w

/-- `SanicMiddleware.do_trace_request`: skip websocket schemes, denylisted
URLs and denylisted methods entirely; otherwise pick a real `ContextTracer`
when tracing is forced by header or allowed by the sampler (else a
`NoopTracer`, which records nothing), start and name the root span, annotate
the standard request attributes and selected headers, stash the tracer on the
request (the returned flag) and publish it in the context store. -/
def do_trace_request (env : MwEnv) (req : Request) (w : World) :
    Except PyErr (World × Bool) :=
  if req.scheme = "ws" ∨ req.scheme = "wss" then .ok (w, false)
  else if env.disable_url req.url then .ok (w, false)
  else if (match env.blacklist_methods with
      | some ms => ms.contains req.method
      | none => false) then .ok (w, false)
  else if (env.from_header && env.trace_enabled) || env.should_sample then
    let p := start_span w "span"
    let spanName := match env.route with
      | some r => "[" ++ env.service_name ++ "] " ++ req.method ++ " " ++ r
      | none => "[" ++ env.service_name ++ "] " ++ req.method ++ " " ++ req.path
    let routingUrl := match env.route with
      | some r => r
      | none => req.url
    let w1 : World := { p.1 with arena := (updateSpan p.1.arena p.2
      (fun s => { s with name := spanName })) }
    do
      let w2 ← add_attribute_to_current_span w1 "http.method" (.s req.method)
      let w3 ← add_attribute_to_current_span w2 "http.host" (.s req.host)
      let w4 ← add_attribute_to_current_span w3 "http.scheme" (.s req.scheme)
      let w5 ← add_attribute_to_current_span w4 "http.url" (.s routingUrl)
      let w6 ← add_attribute_to_current_span w5 "http.client.ip" (.s req.ip)
      let w7 ← addHeaderAttr req "user-agent" w6
      let w8 ← addHeaderAttr req "x-forwarded-for" w7
      let w9 ← addHeaderAttr req "x-real-ip" w8
      Except.ok (set_opencensus_tracer w9, true)
  else
    .ok (set_opencensus_tracer w, true)

/-! ### Lemmas about single operations on arbitrary worlds -/

theorem length_updateSpan (arena : List Span) (i : Nat) (f : Span → Span) :
    (updateSpan arena i f).length = arena.length := by
  simp [updateSpan]

theorem getD_updateSpan_self (arena : List Span) (i : Nat) (f : Span → Span)
    (h : i < arena.length) :
    (updateSpan arena i f).getD i default = f (arena.getD i default) := by
  unfold updateSpan
  exact getD_set_self arena _ default i h

/-- Attaching an attribute when a span is current just rewrites that span's
attribute map. -/
theorem addAttr_of_current (w : World) (i : Nat) (k : String) (v : AttrVal)
    (hcur : w.current = some i) :
    add_attribute_to_current_span w k v =
      .ok { w with arena := (updateSpan w.arena i
        (fun s => { s with attributes := setAttr s.attributes k v })) } := by
  simp [add_attribute_to_current_span, get_current_span, hcur]

/-- Whatever else `end_span` does, with a current span `i` it stamps `i`'s end
time in the arena and returns `i`. -/
theorem end_span_arena_of_current (w : World) (i : Nat)
    (hcur : w.current = some i) :
    (end_span w).1.arena =
      updateSpan w.arena i (fun s => { s with end_time := some w.clock }) ∧
    (end_span w).2 = some i := by
  unfold end_span get_current_span finishSpan
  rw [hcur]
  dsimp only
  cases hpar : ((updateSpan w.arena i
      (fun s => { s with end_time := some w.clock })).getD i default).parent_span with
  | nullCtx sid =>
    by_cases hmem : i ∈ w.spans_list <;> simp [set_current_span, hmem]
  | span j =>
    by_cases hmem : i ∈ w.spans_list <;> simp [set_current_span, hmem]

/-- Postcondition of a successful attribute write: only the current span's
attribute map changes. -/
theorem addAttr_post (w : World) (i : Nat) (k : String) (v : AttrVal)
    (hcur : w.current = some i) (hi : i < w.arena.length) :
    ∃ w', add_attribute_to_current_span w k v = .ok w' ∧
      w'.current = some i ∧ w'.clock = w.clock ∧
      w'.arena.length = w.arena.length ∧
      w'.arena.getD i default =
        { w.arena.getD i default with
            attributes := setAttr (w.arena.getD i default).attributes k v } := by
  refine ⟨_, addAttr_of_current w i k v hcur, hcur, rfl, ?_, ?_⟩
  · dsimp only
    exact length_updateSpan _ _ _
  · dsimp only
    exact getD_updateSpan_self _ _ _ hi

/-- Postcondition of `end_span` on the span that is current: its end time is
stamped (whatever else happens to the bookkeeping). -/
theorem end_span_post (w : World) (i : Nat) (hcur : w.current = some i)
    (hi : i < w.arena.length) :
    (end_span w).1.arena.getD i default =
      { w.arena.getD i default with end_time := some w.clock } := by
  rw [(end_span_arena_of_current w i hcur).1]
  exact getD_updateSpan_self _ _ _ hi

/-- Annotating `error`/`error.message` on the current span and then ending it:
the two attribute writes succeed, and the span afterwards carries both
attributes and an end time. -/
theorem annotate_error_end (W : World) (n : Nat) (e : String)
    (hcur : W.current = some n) (hn : n < W.arena.length) :
    ∃ w1 w2 : World,
      add_attribute_to_current_span W "error" (AttrVal.b true) = .ok w1 ∧
      add_attribute_to_current_span w1 "error.message" (AttrVal.s e) = .ok w2 ∧
      attrLookup (((end_span w2).1.arena.getD n default).attributes) "error" =
        some (AttrVal.b true) ∧
      attrLookup (((end_span w2).1.arena.getD n default).attributes)
        "error.message" = some (AttrVal.s e) ∧
      ((end_span w2).1.arena.getD n default).end_time ≠ none := by
  obtain ⟨w1, e1, hc1, _hk1, hl1, hg1⟩ :=
    addAttr_post W n "error" (AttrVal.b true) hcur hn
  obtain ⟨w2, e2, hc2, _hk2, hl2, hg2⟩ :=
    addAttr_post w1 n "error.message" (AttrVal.s e) hc1 (by rw [hl1]; exact hn)
  have hend := end_span_post w2 n hc2 (by rw [hl2, hl1]; exact hn)
  refine ⟨w1, w2, e1, e2, ?_, ?_, ?_⟩
  · rw [hend]
    show attrLookup ((w2.arena.getD n default).attributes) "error" =
      some (AttrVal.b true)
    rw [hg2]
    show attrLookup (setAttr ((w1.arena.getD n default).attributes)
      "error.message" (AttrVal.s e)) "error" = some (AttrVal.b true)
    rw [attrLookup_setAttr_other _ _ _ _ (by decide), hg1]
    exact attrLookup_setAttr_self _ _ _
  · rw [hend]
    show attrLookup ((w2.arena.getD n default).attributes) "error.message" =
      some (AttrVal.s e)
    rw [hg2]
    exact attrLookup_setAttr_self _ _ _
  · rw [hend]
    simp

theorem except_bind_ok {ε α β : Type} (a : α) (f : α → Except ε β) :
    (Except.ok a >>= f : Except ε β) = f a := rfl

/-- `start_span` leaves the new span current, inside the arena, at the old
arena length. -/
theorem start_span_post (w : World) (name : String) :
    (start_span w name).1.current = some (start_span w name).2 ∧
    (start_span w name).2 < (start_span w name).1.arena.length ∧
    (start_span w name).2 = w.arena.length := by
  rw [start_span_eq]
  refine ⟨rfl, ?_, rfl⟩
  dsimp only
  simp

/-- C4: for every traced operation that raises an exception `e` - the body of
an `AsyncSpan` scoped block (`AsyncSpan.__aexit__`) or the wrapped client call
inside `wrap_execute` - the current span receives `error = true` and
`error.message = str(e)`, the span is nonetheless ended (end time stamped),
and the very same exception `e` propagates to the caller unmodified. -/
theorem c4_error_recorded_span_ended_reraised (w : World) (i : Nat) (e : String)
    (hact : w.tracer_active = true) (hcur : w.current = some i)
    (hi : i < w.arena.length) :
    (∃ w', asyncSpanAexit w (some e) = .ok (w', some e) ∧
      attrLookup ((w'.arena.getD i default).attributes) "error" =
        some (AttrVal.b true) ∧
      attrLookup ((w'.arena.getD i default).attributes) "error.message" =
        some (AttrVal.s e) ∧
      (w'.arena.getD i default).end_time ≠ none) ∧
    (∀ (inst : RedisInstance)
        (wrapped : List String → Except String RedisResult)
        (command : String) (rest : List String),
      wrapped (command :: rest) = .error e →
      ∃ w'', wrap_execute w inst wrapped (command :: rest) =
          .ok (w'', .error e) ∧
        attrLookup ((w''.arena.getD w.arena.length default).attributes)
          "error" = some (AttrVal.b true) ∧
        attrLookup ((w''.arena.getD w.arena.length default).attributes)
          "error.message" = some (AttrVal.s e) ∧
        (w''.arena.getD w.arena.length default).end_time ≠ none) := by
  constructor
  · obtain ⟨wa, wb, e1, e2, q1, q2, q3⟩ := annotate_error_end w i e hcur hi
    refine ⟨(end_span wb).1, ?_, q1, q2, q3⟩
    unfold asyncSpanAexit
    rw [if_neg (by simp [get_opencensus_tracer_active, hact])]
    dsimp only
    simp only [e1, e2, except_bind_ok]
  · intro inst wrapped command rest hwrap
    have hpost := start_span_post w "span"
    unfold wrap_execute
    dsimp only
    rw [if_neg (by simp [get_opencensus_tracer_active, hact])]
    set p := start_span w "span" with hp
    set W1 : World := { p.1 with arena := (updateSpan p.1.arena p.2
      (fun s => { s with name := "[aioredis] " ++ command })) } with hW1
    have hc1 : W1.current = some p.2 := hpost.1
    have hl1 : W1.arena.length = p.1.arena.length := by
      rw [hW1]
      dsimp only
      exact length_updateSpan _ _ _
    have hn1 : p.2 < W1.arena.length := by rw [hl1]; exact hpost.2.1
    obtain ⟨wa2, ea2, hc2, _, hl2, _⟩ :=
      addAttr_post W1 p.2 "redis.db" (AttrVal.n inst.db) hc1 hn1
    obtain ⟨wa3, ea3, hc3, _, hl3, _⟩ :=
      addAttr_post wa2 p.2 "redis.address" (AttrVal.s inst.address.1) hc2
        (by rw [hl2]; exact hn1)
    obtain ⟨wa4, ea4, hc4, _, hl4, _⟩ :=
      addAttr_post wa3 p.2 "redis.port" (AttrVal.n inst.address.2) hc3
        (by rw [hl3, hl2]; exact hn1)
    obtain ⟨wa5, ea5, hc5, _, hl5, _⟩ :=
      addAttr_post wa4 p.2 "redis.encoding" (AttrVal.s inst.encoding) hc4
        (by rw [hl4, hl3, hl2]; exact hn1)
    cases rest with
    | nil =>
      obtain ⟨wb1, wb2, eb1, eb2, q1, q2, q3⟩ :=
        annotate_error_end wa5 p.2 e hc5 (by rw [hl5, hl4, hl3, hl2]; exact hn1)
      rw [hpost.2.2] at q1 q2 q3
      refine ⟨(end_span wb2).1, ?_, q1, q2, q3⟩
      simp only [ea2, ea3, ea4, ea5, List.head?_nil, hwrap, eb1, eb2,
        except_bind_ok]
    | cons key r' =>
      obtain ⟨wa6, ea6, hc6, _, hl6, _⟩ :=
        addAttr_post wa5 p.2 "redis.key" (AttrVal.s key) hc5
          (by rw [hl5, hl4, hl3, hl2]; exact hn1)
      obtain ⟨wb1, wb2, eb1, eb2, q1, q2, q3⟩ :=
        annotate_error_end wa6 p.2 e hc6
          (by rw [hl6, hl5, hl4, hl3, hl2]; exact hn1)
      rw [hpost.2.2] at q1 q2 q3
      refine ⟨(end_span wb2).1, ?_, q1, q2, q3⟩
      simp only [ea2, ea3, ea4, ea5, ea6, List.head?_cons, hwrap, eb1, eb2,
        except_bind_ok]

/-- C4 witness: a tracer with one open span (arena index 0); the scoped-block
exit re-raises "boom" after recording it, and so does the wrapped client call. -/
theorem c4_error_recorded_span_ended_reraised_witness :
    (∃ w', asyncSpanAexit (run (initWorld 3) [Op.start "a"]) (some "boom") =
        .ok (w', some "boom") ∧
      attrLookup ((w'.arena.getD 0 default).attributes) "error" =
        some (AttrVal.b true) ∧
      attrLookup ((w'.arena.getD 0 default).attributes) "error.message" =
        some (AttrVal.s "boom") ∧
      (w'.arena.getD 0 default).end_time ≠ none) ∧
    (∃ w'', wrap_execute (run (initWorld 3) [Op.start "a"])
        { db := 0, address := ("localhost", 6379), encoding := "utf-8" }
        (fun _ => .error "boom") ("GET" :: ["k"]) = .ok (w'', .error "boom") ∧
      attrLookup ((w''.arena.getD
        (run (initWorld 3) [Op.start "a"]).arena.length default).attributes)
        "error" = some (AttrVal.b true) ∧
      attrLookup ((w''.arena.getD
        (run (initWorld 3) [Op.start "a"]).arena.length default).attributes)
        "error.message" = some (AttrVal.s "boom") ∧
      (w''.arena.getD (run (initWorld 3) [Op.start "a"]).arena.length
        default).end_time ≠ none) :=
  ⟨(c4_error_recorded_span_ended_reraised (run (initWorld 3) [Op.start "a"]) 0
      "boom" (by decide) (by decide) (by decide)).1,
    (c4_error_recorded_span_ended_reraised (run (initWorld 3) [Op.start "a"]) 0
      "boom" (by decide) (by decide) (by decide)).2
      { db := 0, address := ("localhost", 6379), encoding := "utf-8" }
      (fun _ => .error "boom") "GET" ["k"] rfl⟩

/-- C6: the claim that `AsyncSpan` works as a decorator fails on the code:
constructing `AsyncSpan` around a callable succeeds and stores it, but
awaiting the decorated call executes `with self:` on an object that defines
only `__aenter__`/`__aexit__` and no `__enter__`/`__exit__`, so Python raises
before the wrapped function runs and before any span is started, in every task
state and for every argument list - the wrapped function's result is never
produced. -/
theorem c6_decorator_call_raises :
    asyncSpanInit (InitArg.callableArg 0) none =
      .ok { name := none, function := some 0 } ∧
    ∀ (w : World) (callArgs : List InitArg),
      asyncSpanCall { name := none, function := some 0 } w callArgs =
        .error (.attrError
          "AsyncSpan does not define a synchronous context manager entry") :=
  ⟨rfl, fun _ _ => rfl⟩

/-- C7: `add_attribute_to_current_span` called while the context store holds
no current span for the task dereferences `None` and raises, rather than
silently dropping the attribute or succeeding. -/
theorem c7_add_attribute_without_span_raises (w : World) (k : String)
    (v : AttrVal) (h : w.current = none) :
    add_attribute_to_current_span w k v =
      .error (.attrError "NoneType has no add_attribute") := by
  simp [add_attribute_to_current_span, get_current_span, h]

/-- C7 witness: a fresh task, which has no current span. -/
theorem c7_add_attribute_without_span_raises_witness :
    add_attribute_to_current_span (initWorld 0) "error" (AttrVal.b true) =
      .error (.attrError "NoneType has no add_attribute") :=
  c7_add_attribute_without_span_raises (initWorld 0) "error" (AttrVal.b true)
    rfl

/-- C8: when the context store holds no active tracer, `wrap_execute` returns
exactly the wrapped call's outcome (its result, or its exception propagated
unchanged), starting no span, adding no attributes, and leaving the context
store and all tracer state unmodified - for every argument list the wrapped
call itself accepts (`execute` requires the command, so the list is
nonempty). -/
theorem c8_no_tracer_calls_through (w : World) (inst : RedisInstance)
    (wrapped : List String → Except String RedisResult) (args : List String)
    (hargs : args ≠ []) (hno : w.tracer_active = false) :
    wrap_execute w inst wrapped args = .ok (w, wrapped args) := by
  cases args with
  | nil => exact absurd rfl hargs
  | cons c rest =>
    unfold wrap_execute
    dsimp only
    rw [if_pos (by simp [get_opencensus_tracer_active, hno])]

/-- C8 witness: no active tracer, a two-argument command list, a successful
wrapped call. -/
theorem c8_no_tracer_calls_through_witness :
    wrap_execute { initWorld 3 with tracer_active := false }
        { db := 0, address := ("localhost", 6379), encoding := "utf-8" }
        (fun _ => .ok RedisResult.other) ["GET", "k"] =
      .ok ({ initWorld 3 with tracer_active := false },
        .ok RedisResult.other) :=
  c8_no_tracer_calls_through _ _ _ _ (by simp) rfl

/-- C9: a request whose URL matches the configured blacklist paths makes the
middleware's request phase a no-op: no span is created, no tracer is stashed
on the request, and the context store and tracer state are untouched. -/
theorem c9_blacklisted_url_no_trace (env : MwEnv) (req : Request) (w : World)
    (h : env.disable_url req.url = true) :
    do_trace_request env req w = .ok (w, false) := by
  unfold do_trace_request
  by_cases hws : req.scheme = "ws" ∨ req.scheme = "wss"
  · rw [if_pos hws]
  · rw [if_neg hws, if_pos h]

/-- C9 witness: a `/health` request against a blacklist matching every URL. -/
theorem c9_blacklisted_url_no_trace_witness :
    do_trace_request
      { disable_url := fun _ => true, blacklist_methods := none,
        from_header := false, trace_enabled := false, should_sample := true,
        route := none, service_name := "svc" }
      { scheme := "http", url := "/health", method := "GET", path := "/health",
        host := "h", ip := "127.0.0.1", headers := [] }
      (initWorld 0) = .ok (initWorld 0, false) :=
  c9_blacklisted_url_no_trace _ _ _ rfl

/-- C10: the public factory `span()` with no argument (identically,
`span(name=None)`) always raises `TypeError` from `AsyncSpan.__init__`, since
`None` is neither a string nor callable; and every successful factory call
carries the given string name and no function, so the `"[func] "`-derived span
name of `__aenter__` is unreachable through this factory. -/
theorem c10_span_factory_none_raises :
    spanFactory none =
      .error (.typeError
        "First parameter must be either a span name or a callable function") ∧
    ∀ (s : String) (o : AsyncSpanObj), spanFactory (some s) = .ok o →
      o.name = some s ∧ o.function = none ∧
      ∀ funcName, aenterSpanName o funcName = s := by
  refine ⟨rfl, ?_⟩
  intro s o h
  injection h with h'
  subst h'
  exact ⟨rfl, rfl, fun _ => rfl⟩

/-- C10 witness: the factory given the name "db". -/
theorem c10_span_factory_none_raises_witness :
    spanFactory none =
      .error (.typeError
        "First parameter must be either a span name or a callable function") ∧
    aenterSpanName { name := some "db", function := none } "f" = "db" :=
  ⟨c10_span_factory_none_raises.1,
    (c10_span_factory_none_raises.2 "db"
      { name := some "db", function := none } rfl).2.2 "f"⟩

end Qubit
